import Mathlib

/-!
Verification of the conversation-state / hand-off subsystem of the
`ai-sre-agent` repository.

The Python sources are shallowly embedded here:
* Python `str` values are modelled as `List Char` (one element per code point,
  matching Python's character-indexed semantics of `len`, slicing, `in`,
  `split`, `replace`, `strip`).
* The message objects flowing through a run (AutoGen chat messages and
  events) are modelled by `RMsg`: the Python type name (`type(msg).__name__`),
  the `source` attribute and the textual `content` (after Python's `str()`
  coercion, which is how every inspected call site reads it).
* Conversation-history entries (`{"role": ..., "content": ...}` dicts) are
  modelled by `HistEntry`.  Whether the dict's `str()` serialisation contains
  the substring `"tool_calls"` depends on extra keys the dict may carry, so it
  is modelled as an attribute of the entry.
* The tool registry's Python dicts are modelled as functions plus an
  insertion-ordered key list; module-level globals become an explicit
  `ToolModule` state threaded through calls.

Functions are translated from:
* `src/agent/src/utils/message_processor.py`
* `src/agent/src/workflows/chat_workflow.py`
* `src/agent/src/tools/tool_registry.py`
The turn-taking engine itself (the AutoGen `Swarm` run loop) is external to
the repository and is modelled from the specification (see `runChatAux`).
-/

set_option maxRecDepth 200000

namespace SreAgent

/-- Convert a Lean string literal to the `List Char` model of a Python `str`. -/
def pys (s : String) : List Char := s.data

/-- Python `str.strip()` whitespace test (ASCII whitespace as used here). -/
def isPySpace (c : Char) : Bool :=
  c == ' ' || c == '\t' || c == '\n' || c == '\r' || c == '\x0b' || c == '\x0c'

/-- Drop characters satisfying `q` from the right end (Python `rstrip`). -/
def rdropWhileL (q : Char → Bool) (l : List Char) : List Char :=
  (l.reverse.dropWhile q).reverse

/-- Python `str.strip()`: remove whitespace from both ends. -/
def trimL (l : List Char) : List Char :=
  rdropWhileL isPySpace (l.dropWhile isPySpace)

/-- Python `pat in s` (substring containment). -/
def containsL (p : List Char) : List Char → Bool
  | [] => p.isEmpty
  | a :: t => p.isPrefixOf (a :: t) || containsL p t

/-- Python `s.split(pat)[0]` for a non-empty separator: the prefix of `s`
before the first occurrence of `pat` (all of `s` when absent). -/
def firstSplit (p : List Char) : List Char → List Char
  | [] => []
  | a :: t => if p.isPrefixOf (a :: t) then [] else a :: firstSplit p t

/-- Fuel-driven worker for `replaceL`; the fuel is an upper bound on the
number of recursion steps (each step consumes at least one character). -/
def replaceLAux (p : List Char) : Nat → List Char → List Char
  | 0, l => l
  | _ + 1, [] => []
  | fuel + 1, a :: t =>
    if p.isPrefixOf (a :: t) && !p.isEmpty then replaceLAux p fuel (List.drop (p.length - 1) t)
    else a :: replaceLAux p fuel t

/-- Python `s.replace(p, "")` for non-empty `p`: delete the occurrences of
`p` scanning left to right, resuming after each deleted match. -/
def replaceL (p l : List Char) : List Char := replaceLAux p l.length l

/-- Python `s.index(pat)` as an option (character position of the first
occurrence, `none` instead of `ValueError`). -/
def idxOf? (p : List Char) : List Char → Option Nat
  | [] => if p.isEmpty then some 0 else none
  | a :: t => if p.isPrefixOf (a :: t) then some 0 else (idxOf? p t).map (· + 1)

/-- Python `s[a:b]` for non-negative bounds. -/
def sliceL (l : List Char) (a b : Nat) : List Char := (l.drop a).take (b - a)

/-- Python `l[-n:]`: the last `n` elements. -/
def lastN (n : Nat) (l : List α) : List α := l.drop (l.length - n)

/-- Python `str.upper()` (ASCII). -/
def upperL (l : List Char) : List Char := l.map Char.toUpper

/-- Python `str.lower()` (ASCII). -/
def lowerL (l : List Char) : List Char := l.map Char.toLower

/-- A message/event of a conversation run: Python type name
(`type(msg).__name__`), `source` attribute, and `str()`-coerced content. -/
structure RMsg where
  mtype : String
  source : String
  content : List Char
deriving DecidableEq

/-- The terminal keyword used by the termination condition and the
extraction code (`"TERMINATE"`). -/
def kwTERM : List Char := pys "TERMINATE"

/-- Python `content_clean.rstrip("!.,;")` from the extraction code. -/
def rstripPunct (l : List Char) : List Char :=
  rdropWhileL (fun c => c == '!' || c == '.' || c == ',' || c == ';') l

/-- First loop of `MessageProcessor.extract_final_response` (identical to
`ChatWorkflow._extract_final_response`): scan the (already reversed) message
list; skip stop/handoff messages, empty texts, serialized-object debug text;
on a message containing `TERMINATE` return the cleaned text before the
keyword when it is longer than 30 characters; otherwise return texts longer
than 30 characters. -/
def mainScan : List RMsg → Option (List Char)
  | [] => none
  | m :: rest =>
    if m.mtype == "StopMessage" || m.mtype == "HandoffMessage" then mainScan rest
    else
      let c := trimL m.content
      if c.isEmpty then mainScan rest
      else if (pys "messages=[").isPrefixOf c || containsL (pys "TextMessage(") c then
        mainScan rest
      else if containsL kwTERM c then
        let bt := rstripPunct (trimL (firstSplit kwTERM c))
        if 30 < bt.length then some bt else mainScan rest
      else if 30 < c.length then some c
      else mainScan rest

/-- Second (fallback) loop of `extract_final_response`: skip only
`StopMessage`, delete all `TERMINATE` occurrences, skip serialized-object
debug text, return texts longer than 20 characters. -/
def fallbackScan : List RMsg → Option (List Char)
  | [] => none
  | m :: rest =>
    if m.mtype == "StopMessage" then fallbackScan rest
    else
      let c := trimL (replaceL kwTERM m.content)
      if containsL (pys "messages=[") c || containsL (pys "TextMessage(") c then
        fallbackScan rest
      else if 20 < c.length then some c
      else fallbackScan rest

/-- The fixed fallback sentence of `extract_final_response`. -/
def fallbackSentence : List Char :=
  pys "Analysis completed. Please let me know if you need more information."

/-- `MessageProcessor.extract_final_response` /
`ChatWorkflow._extract_final_response` (the two are line-for-line the same
algorithm). -/
def extract_final_response (messages : List RMsg) : List Char :=
  if messages.isEmpty then pys "No response generated"
  else
    match mainScan messages.reverse with
    | some r => r
    | none =>
      match fallbackScan messages.reverse with
      | some r => r
      | none => fallbackSentence

/-- Qualification test of the first extraction loop, branch for branch the
condition under which `mainScan` returns at a message. -/
def mainQual (m : RMsg) : Bool :=
  if m.mtype == "StopMessage" || m.mtype == "HandoffMessage" then false
  else
    let c := trimL m.content
    if c.isEmpty then false
    else if (pys "messages=[").isPrefixOf c || containsL (pys "TextMessage(") c then false
    else if containsL kwTERM c then
      decide (30 < (rstripPunct (trimL (firstSplit kwTERM c))).length)
    else decide (30 < c.length)

/-- Text returned by the first extraction loop at a qualifying message. -/
def mainRes (m : RMsg) : List Char :=
  let c := trimL m.content
  if containsL kwTERM c then rstripPunct (trimL (firstSplit kwTERM c)) else c

/-- Qualification test of the fallback extraction loop. -/
def fbQual (m : RMsg) : Bool :=
  if m.mtype == "StopMessage" then false
  else
    let c := trimL (replaceL kwTERM m.content)
    if containsL (pys "messages=[") c || containsL (pys "TextMessage(") c then false
    else decide (20 < c.length)

/-- Text returned by the fallback extraction loop at a qualifying message. -/
def fbRes (m : RMsg) : List Char := trimL (replaceL kwTERM m.content)

/-- Opening marker of a context summary. -/
def openTag : List Char := pys "[CONTEXT_SUMMARY]"

/-- Closing marker of a context summary. -/
def closeTag : List Char := pys "[/CONTEXT_SUMMARY]"

/-- Loop body of `MessageProcessor.extract_context_summary`, acting on the
reversed message list: skip non-orchestrator messages; for an orchestrator
message containing the opening marker, take `content.index` of both markers
(a missing closing marker raises `ValueError`, which the source catches and
then continues scanning), and return `content[start:end].strip()`. -/
def ecsGo : List RMsg → Option (List Char)
  | [] => none
  | m :: rest =>
    if m.source == "chat_orchestrator" then
      if containsL openTag m.content then
        match idxOf? closeTag m.content with
        | none => ecsGo rest
        | some endIdx =>
          some (trimL (sliceL m.content ((idxOf? openTag m.content).getD 0 + openTag.length) endIdx))
      else ecsGo rest
    else ecsGo rest

/-- `MessageProcessor.extract_context_summary`. -/
def extract_context_summary (messages : List RMsg) : Option (List Char) :=
  ecsGo messages.reverse

/-- Qualification test for `extract_context_summary`: orchestrator source,
opening marker present, closing marker present somewhere in the content. -/
def ecsQual (m : RMsg) : Bool :=
  m.source == "chat_orchestrator" && containsL openTag m.content &&
    (idxOf? closeTag m.content).isSome

/-- Summary value produced by `extract_context_summary` at a qualifying
message. -/
def ecsRes (m : RMsg) : List Char :=
  trimL (sliceL m.content ((idxOf? openTag m.content).getD 0 + openTag.length)
    ((idxOf? closeTag m.content).getD 0))

/-- One conversation-history entry, a Python dict `{"role": ..., "content":
...}` possibly carrying further keys.  `reprToolCalls` models whether the
substring `"tool_calls"` occurs in `str(msg)`, the dict's serialisation. -/
structure HistEntry where
  role : String
  content : List Char
  reprToolCalls : Bool
deriving DecidableEq

/-- The fixed placeholder entry substituted by `_build_chat_task` for
over-long assistant messages. -/
def placeholderEntry : HistEntry := ⟨"assistant", pys "[Previous analysis provided]", false⟩

/-- One step of the history filter of `ChatWorkflow._build_chat_task`
(lines 434–456): drop tool/function roles; for entries whose serialisation
mentions `tool_calls` or whose content exceeds 2000 characters, keep a fixed
placeholder when the role is `assistant` and drop the entry otherwise;
keep everything else unchanged. -/
def filterStep (e : HistEntry) : Option HistEntry :=
  if e.role == "tool" || e.role == "function" then none
  else if e.reprToolCalls || decide (2000 < e.content.length) then
    if e.role == "assistant" then some placeholderEntry else none
  else some e

/-- The history filter loop of `_build_chat_task` (append-in-order). -/
def filterHist (l : List HistEntry) : List HistEntry := l.filterMap filterStep

/-- Truncation applied by `_build_chat_task` when formatting an entry:
contents longer than 300 characters are cut and an ellipsis appended. -/
def truncate300 (c : List Char) : List Char :=
  if 300 < c.length then c.take 300 ++ pys "..." else c

/-- Formatting of one included entry by `_build_chat_task`:
`f"{role.upper()}: {content}\n"`. -/
def formatEntryW (e : HistEntry) : List Char :=
  upperL (pys e.role) ++ pys ": " ++ truncate300 e.content ++ pys "\n"

/-- The history section built by `_build_chat_task` when the history key is
present: nothing for an empty history, otherwise the header, the last 4
entries of the filtered view of the last 10 entries, and a blank line. -/
def histSectionW (h : List HistEntry) : List Char :=
  if h.isEmpty then []
  else
    pys "Previous Conversation Summary:\n" ++
      ((lastN 4 (filterHist (lastN 10 h))).map formatEntryW).flatten ++ pys "\n"

/-- The `conversation_context` dict: the optional keys read by the two task
builders.  `none` at the outer level models an absent or empty (falsy) dict;
`none` in a field models an absent key. -/
structure ChatContext where
  conversation_history : Option (List HistEntry)
  nspace : Option (List Char)
  pod : Option (List Char)
  previous_findings : Option (List Char)

/-- The auxiliary context lines of `_build_chat_task` (namespace, pod,
previous findings). -/
def ctxExtrasW (ctx : ChatContext) : List Char :=
  (match ctx.nspace with
   | some ns => pys "Namespace: " ++ ns ++ pys "\n"
   | none => []) ++
  (match ctx.pod with
   | some p => pys "Pod: " ++ p ++ pys "\n"
   | none => []) ++
  (match ctx.previous_findings with
   | some pf => pys "\nPrevious Findings:\n" ++ pf ++ pys "\n"
   | none => [])

/-- `ChatWorkflow._build_chat_task`. -/
def build_chat_task (user_message : List Char) (ctx : Option ChatContext) : List Char :=
  (match ctx with
   | some c =>
     match c.conversation_history with
     | some h => histSectionW h
     | none => []
   | none => []) ++
  pys "Current User Question: " ++ user_message ++ pys "\n\n" ++
  (match ctx with
   | some c => ctxExtrasW c
   | none => []) ++
  pys "\nPlease help the user by engaging the appropriate expert agents. Continue the conversation naturally based on the context."

/-- Truncation applied by `MessageProcessor.build_task`: contents longer
than 500 characters are cut and an ellipsis appended. -/
def truncate500 (c : List Char) : List Char :=
  if 500 < c.length then c.take 500 ++ pys "..." else c

/-- Formatting of one recent entry by `MessageProcessor.build_task`: only
user and assistant roles produce a line; other roles contribute nothing. -/
def fmtM (e : HistEntry) : List Char :=
  if e.role == "user" then pys "\n👤 USER: " ++ truncate500 e.content ++ pys "\n"
  else if e.role == "assistant" then pys "🤖 ASSISTANT: " ++ truncate500 e.content ++ pys "\n"
  else []

/-- The `"=" * 50` separator line of `build_task`. -/
def eqLine : List Char := List.replicate 50 '='

/-- The history section of `MessageProcessor.build_task`: present only when
the history holds more than one entry; formats the last 6 entries preceding
the current one (`history[:-1][-6:]`). -/
def histSectionM (h : List HistEntry) : List Char :=
  if 1 < h.length then
    pys "📋 Previous Conversation Context:\n" ++ eqLine ++ pys "\n" ++
      ((lastN 6 h.dropLast).map fmtM).flatten ++ eqLine ++ pys "\n\n"
  else []

/-- The follow-up metric-request keywords checked by `build_task`. -/
def metricKeywords : List (List Char) :=
  [pys "관련 매트릭", pys "관련 메트릭", pys "매트릭도", pys "메트릭도", pys "related metric"]

/-- Python `any(keyword in user_message.lower() for keyword in metric_keywords)`. -/
def isMetricFollowup (um : List Char) : Bool :=
  metricKeywords.any (fun k => containsL k (lowerL um))

/-- The fixed warning block appended by `build_task` for follow-up metric
requests. -/
def criticalBlock : List Char :=
  pys "\n⚠️ CRITICAL: This is a follow-up metric request.\n" ++
  pys "BEFORE transferring to metric_expert, you MUST:\n" ++
  pys "1. Read the Previous Conversation Context above\n" ++
  pys "2. Identify: Namespace, Pod name, Error message\n" ++
  pys "3. Show USER a summary: '이전 분석 내용을 확인해보니: [요약]'\n" ++
  pys "4. Transfer to metric_expert WITH [CONTEXT] and [REQUESTED METRICS] sections\n" ++
  pys "5. DO NOT use generic queries like prometheus_get_essential_metrics without pod_name\n"

/-- The auxiliary context lines of `build_task`. -/
def ctxExtrasM (ctx : ChatContext) : List Char :=
  (match ctx.nspace with
   | some ns => pys "🎯 Target Namespace: " ++ ns ++ pys "\n"
   | none => []) ++
  (match ctx.pod with
   | some p => pys "🎯 Target Pod: " ++ p ++ pys "\n"
   | none => []) ++
  (match ctx.previous_findings with
   | some pf => pys "\n💡 Key Findings from Previous Analysis:\n" ++ pf ++ pys "\n"
   | none => [])

/-- `MessageProcessor.build_task`. -/
def build_task (user_message : List Char) (ctx : Option ChatContext) : List Char :=
  (match ctx with
   | some c =>
     match c.conversation_history with
     | some h => histSectionM h
     | none => []
   | none => []) ++
  pys "📍 Current User Question: " ++ user_message ++ pys "\n\n" ++
  (match ctx with
   | some c => ctxExtrasM c
   | none => []) ++
  pys "\n" ++ eqLine ++ pys "\n" ++
  pys "🤝 Instructions: Review the conversation context above and help the user with their current question.\n" ++
  pys "If this is a follow-up request (like 'show related metrics'), use the previous context to provide relevant analysis.\n" ++
  (if isMetricFollowup user_message then criticalBlock else [])

/-- A registered tool: an opaque callable, identified here by its
`__name__`. -/
structure PTool where
  name : String
deriving DecidableEq

/-- `ToolRegistry`: `_tools` is a dict category → list of tools, modelled as
a total function (absent keys map to `[]`, matching `dict.get(c, [])`) plus
the insertion-ordered key list; `_tool_metadata` maps tool names to their
metadata dict. -/
structure ToolRegistryM where
  tools : String → List PTool
  knownCats : List String
  metadataOf : String → Option (List (String × String))

/-- `ToolRegistry.__init__`: the five predeclared empty categories. -/
def toolRegistryInit : ToolRegistryM :=
  ⟨fun _ => [], ["kubernetes", "logs", "metrics", "actions", "validation"], fun _ => none⟩

/-- `ToolRegistry.register_tool`: auto-create an unknown category, append
the tool, store metadata when a non-empty metadata dict is given. -/
def register_tool (r : ToolRegistryM) (category : String) (tool : PTool)
    (metadata : Option (List (String × String))) : ToolRegistryM :=
  let r' : ToolRegistryM :=
    if category ∈ r.knownCats then r
    else { r with knownCats := r.knownCats ++ [category] }
  { r' with
    tools := fun c => if c = category then r'.tools category ++ [tool] else r'.tools c,
    metadataOf :=
      match metadata with
      | some md =>
        if md.isEmpty then r'.metadataOf
        else fun n => if n = tool.name then some md else r'.metadataOf n
      | none => r'.metadataOf }

/-- `ToolRegistry.register_tools`: register a list one by one, looking each
tool's metadata up by `__name__` in the optional metadata dict. -/
def register_tools (r : ToolRegistryM) (category : String) (ts : List PTool)
    (metadata : Option (List (String × List (String × String)))) : ToolRegistryM :=
  ts.foldl
    (fun acc t =>
      register_tool acc category t
        (match metadata with
         | some md => (md.find? (·.1 == t.name)).map (·.2)
         | none => none))
    r

/-- `ToolRegistry.get_tools`: `self._tools.get(category, [])`. -/
def get_tools (r : ToolRegistryM) (category : String) : List PTool := r.tools category

/-- The module-level globals of `tool_registry.py`: `_tool_registry` and
`_tools_initialized`. -/
structure ToolModule where
  tool_registry : Option ToolRegistryM
  tools_initialized : Bool

/-- The state of the module before any call. -/
def toolModuleInit : ToolModule := ⟨none, false⟩

/-- `get_tool_registry`: create the singleton registry on first use. -/
def get_tool_registry (st : ToolModule) : ToolRegistryM × ToolModule :=
  match st.tool_registry with
  | some r => (r, st)
  | none => (toolRegistryInit, { st with tool_registry := some toolRegistryInit })

/-- Outcomes of the three registration sources imported inside
`initialize_tool_registry`.  An `Except.error` models any exception raised
while importing or fetching that source (caught and logged by the source).
For the kubernetes source, `.ok none` models an instance without a
`get_tools` attribute; the module `tools.kubernetes` does not exist in the
repository, so in practice that source always raises `ImportError`. -/
structure ToolSources where
  loki : Except String (List PTool)
  prometheus : Except String (List PTool)
  kubernetes : Except String (Option (List PTool))

/-- `initialize_tool_registry`: return at once when already initialized;
otherwise register each source's tools under its category, swallowing
per-source failures, and finally set the module flag unconditionally. -/
def initialize_tool_registry (src : ToolSources) (st : ToolModule) :
    ToolRegistryM × ToolModule :=
  let p := get_tool_registry st
  if p.2.tools_initialized then p
  else
    let r1 :=
      match src.loki with
      | .ok ts => register_tools p.1 "logs" ts none
      | .error _ => p.1
    let r2 :=
      match src.prometheus with
      | .ok ts => register_tools r1 "metrics" ts none
      | .error _ => r1
    let r3 :=
      match src.kubernetes with
      | .ok (some ts) => register_tools r2 "kubernetes" ts none
      | .ok none => r2
      | .error _ => r2
    (r3, { tool_registry := some r3, tools_initialized := true })

/-- Modelled from the spec: the turn-taking conversation engine (the AutoGen
`Swarm` run loop, external to the repository) checks its termination
condition after every emitted event.  The condition configured by
`ChatWorkflow._create_team` is
`MaxMessageTermination(max_messages=20) | TextMentionTermination("TERMINATE")`:
the event count reaching the cap, or any message's text containing the
terminal keyword. -/
def terminationMet (maxMessages : Nat) (keyword : List Char) (msgs : List RMsg) : Bool :=
  decide (maxMessages ≤ msgs.length) || msgs.any (fun m => containsL keyword m.content)

/-- Modelled from the spec: the engine's run loop.  `producer` abstracts the
agents (it yields the next emitted event given how many were emitted so
far); the loop stops as soon as the termination condition holds.  Lean
accepts this recursion only because the message cap forces termination. -/
def runChatAux (producer : Nat → RMsg) (maxMessages : Nat) (keyword : List Char)
    (acc : List RMsg) : List RMsg :=
  if terminationMet maxMessages keyword acc then acc
  else runChatAux producer maxMessages keyword (acc ++ [producer acc.length])
termination_by maxMessages - acc.length
decreasing_by
  rename_i h
  simp [terminationMet] at h
  simp
  omega

/-- Modelled from the spec: one conversation run of the swarm team created
by `ChatWorkflow._create_team` (cap 20, keyword `TERMINATE`). -/
def runChat (producer : Nat → RMsg) : List RMsg :=
  runChatAux producer 20 kwTERM []

/-- An agent object created by `AssistantAgent(...)`; `id` is its allocation
ticket, distinguishing object identities. -/
structure AgentObj where
  id : Nat
  name : String
deriving DecidableEq

/-- The agent attributes a `ChatWorkflow` instance holds after `__init__`:
the shared model client and the six agents built once by `_create_agents`. -/
structure ChatWorkflowSt where
  model_client : Nat
  orchestrator : AgentObj
  metric_expert : AgentObj
  log_expert : AgentObj
  analysis_agent : AgentObj
  report_agent : AgentObj
  presentation_agent : AgentObj
deriving DecidableEq

/-- `ChatWorkflow.__init__` / `_create_agents`: allocate the model client
and the six agent objects once; `c` is the next free allocation ticket. -/
def chat_workflow_init (c : Nat) : ChatWorkflowSt × Nat :=
  (⟨c, ⟨c + 1, "chat_orchestrator"⟩, ⟨c + 2, "metric_expert"⟩, ⟨c + 3, "log_expert"⟩,
    ⟨c + 4, "analysis_agent"⟩, ⟨c + 5, "report_agent"⟩, ⟨c + 6, "presentation_agent"⟩⟩,
   c + 7)

/-- A `Swarm` team object: its own allocation ticket and the participant
objects it references. -/
structure SwarmTeam where
  teamId : Nat
  participants : List AgentObj
deriving DecidableEq

/-- `ChatWorkflow._create_team`: construct a new `Swarm` object whose
participants are the agent attributes stored on the workflow instance. -/
def create_team (w : ChatWorkflowSt) (c : Nat) : SwarmTeam × Nat :=
  (⟨c, [w.orchestrator, w.metric_expert, w.log_expert, w.analysis_agent,
        w.report_agent, w.presentation_agent]⟩,
   c + 1)

/-- The team used by one `ChatWorkflow.process_chat` call: exactly the
result of `_create_team` on the stored workflow state. -/
def process_chat_team (w : ChatWorkflowSt) (c : Nat) : SwarmTeam × Nat :=
  create_team w c

/-- Concrete message whose content splices a new `TERMINATE` occurrence when
the keyword deletions of the fallback path are applied. -/
def cexMsgB : RMsg := ⟨"TextMessage", "analysis_agent", pys "TERMINTERMINATEATE pattern splice keeps going"⟩

/-- Concrete message with a substantial answer before the terminal keyword. -/
def msgGood : RMsg :=
  ⟨"TextMessage", "analysis_agent",
   pys "The pod is crashing because its memory limit is far too low. TERMINATE"⟩

/-- Concrete handoff event with a long text and no terminal keyword. -/
def msgHandoffW : RMsg :=
  ⟨"HandoffMessage", "log_expert", pys "Transferring to metric expert for analysis"⟩

/-- Concrete short message qualifying for neither extraction pass. -/
def msgShortW : RMsg := ⟨"TextMessage", "user", pys "hi"⟩

/-- Concrete orchestrator message whose first closing marker precedes the
opening marker. -/
def msgMalformed : RMsg :=
  ⟨"TextMessage", "chat_orchestrator", pys "[/CONTEXT_SUMMARY]x[CONTEXT_SUMMARY]"⟩

/-- Concrete non-orchestrator message (no summary markers). -/
def msgPlainW : RMsg := ⟨"TextMessage", "user", pys "hello"⟩

/-- Concrete producer whose first event already carries the terminal keyword. -/
def chatMsgW : RMsg :=
  ⟨"TextMessage", "chat_orchestrator", pys "All diagnostics complete. TERMINATE"⟩

/-- Producer used to exercise one concrete engine run. -/
def chatProducerW : Nat → RMsg := fun _ => chatMsgW

/-- Concrete history containing an over-long (501-character) assistant
entry, for `MessageProcessor.build_task`. -/
def hM : List HistEntry :=
  [⟨"user", pys "first question", false⟩,
   ⟨"assistant", List.replicate 501 'a', false⟩,
   ⟨"user", pys "current", false⟩]

theorem isPrefixOf_true_iff (l₁ l₂ : List Char) : l₁.isPrefixOf l₂ = true ↔ l₁ <+: l₂ := by
  simp

theorem containsL_true_iff (p l : List Char) : containsL p l = true ↔ p <:+: l := by
  induction l with
  | nil => simp [containsL, List.isEmpty_iff]
  | cons a t ih =>
    rw [containsL]
    simp only [Bool.or_eq_true, ih, isPrefixOf_true_iff]
    exact (List.infix_cons_iff).symm

theorem containsL_false_iff (p l : List Char) : containsL p l = false ↔ ¬ p <:+: l := by
  rw [← containsL_true_iff]
  simp

theorem firstSplit_isPre (p l : List Char) : firstSplit p l <+: l := by
  induction l with
  | nil => simp [firstSplit]
  | cons a t ih =>
    rw [firstSplit]
    split
    · exact List.nil_prefix
    · exact (List.cons_prefix_cons).2 ⟨rfl, ih⟩

theorem not_containsL_firstSplit (p l : List Char) (hp : p ≠ []) :
    containsL p (firstSplit p l) = false := by
  induction l with
  | nil => simpa [firstSplit, containsL, List.isEmpty_iff]
  | cons a t ih =>
    rw [firstSplit]
    split
    · simpa [containsL, List.isEmpty_iff]
    · rename_i hnp
      rw [containsL, Bool.or_eq_false_iff]
      refine ⟨?_, ih⟩
      rw [Bool.eq_false_iff]
      intro habs
      apply hnp
      rw [isPrefixOf_true_iff] at habs ⊢
      exact habs.trans ((List.cons_prefix_cons).2 ⟨rfl, firstSplit_isPre p t⟩)

theorem containsL_false_of_infix {p l l' : List Char} (h : l' <:+: l)
    (hc : containsL p l = false) : containsL p l' = false := by
  rw [containsL_false_iff] at hc ⊢
  intro habs
  exact hc (habs.trans h)

theorem rdropWhileL_isPre (q : Char → Bool) (l : List Char) : rdropWhileL q l <+: l := by
  rw [← List.reverse_suffix, rdropWhileL, List.reverse_reverse]
  exact List.dropWhile_suffix q

theorem trimL_isInfix (l : List Char) : trimL l <:+: l := by
  rw [List.infix_iff_prefix_suffix]
  exact ⟨l.dropWhile isPySpace, rdropWhileL_isPre _ _, List.dropWhile_suffix _⟩

theorem kwTERM_ne_nil : kwTERM ≠ [] := by decide

theorem mainRes_no_kw (m : RMsg) : containsL kwTERM (mainRes m) = false := by
  rw [mainRes]
  split
  · have h1 := not_containsL_firstSplit kwTERM (trimL m.content) kwTERM_ne_nil
    have h2 := containsL_false_of_infix (trimL_isInfix (firstSplit kwTERM (trimL m.content))) h1
    exact containsL_false_of_infix ((rdropWhileL_isPre _ _).isInfix) h2
  · rename_i h
    exact Bool.eq_false_iff.2 h

theorem mainScan_eq_find (l : List RMsg) :
    mainScan l = (l.find? mainQual).map mainRes := by
  induction l with
  | nil => rfl
  | cons m rest ih =>
    by_cases hq : mainQual m = true
    · rw [List.find?_cons_of_pos _ hq]
      rw [mainScan]
      simp only [mainQual] at hq
      split_ifs at hq ⊢ <;> simp_all [mainRes]
    · rw [List.find?_cons_of_neg _ hq]
      rw [mainScan]
      simp only [mainQual] at hq
      split_ifs at hq ⊢ <;> simp_all

theorem fallbackScan_eq_find (l : List RMsg) :
    fallbackScan l = (l.find? fbQual).map fbRes := by
  induction l with
  | nil => rfl
  | cons m rest ih =>
    by_cases hq : fbQual m = true
    · rw [List.find?_cons_of_pos _ hq]
      rw [fallbackScan]
      simp only [fbQual] at hq
      split_ifs at hq ⊢
      all_goals simp_all [fbRes]
    · rw [List.find?_cons_of_neg _ hq]
      rw [fallbackScan]
      simp only [fbQual] at hq
      split_ifs at hq ⊢ <;> simp_all

theorem idxOf?_isSome_eq (p l : List Char) : (idxOf? p l).isSome = containsL p l := by
  induction l with
  | nil =>
    rw [idxOf?, containsL]
    split <;> simp_all [List.isEmpty_iff]
  | cons a t ih =>
    rw [idxOf?, containsL]
    split <;> simp_all

theorem ecsGo_eq_find (l : List RMsg) :
    ecsGo l = (l.find? ecsQual).map ecsRes := by
  induction l with
  | nil => rfl
  | cons m rest ih =>
    by_cases hq : ecsQual m = true
    · rw [List.find?_cons_of_pos _ hq]
      rw [ecsGo]
      simp only [ecsQual, Bool.and_eq_true] at hq
      obtain ⟨⟨h1, h2⟩, h3⟩ := hq
      rw [if_pos h1, if_pos h2]
      obtain ⟨endIdx, hend⟩ := Option.isSome_iff_exists.1 h3
      rw [hend]
      simp [ecsRes, hend]
    · rw [List.find?_cons_of_neg _ hq]
      rw [ecsGo]
      by_cases h1 : (m.source == "chat_orchestrator") = true
      · rw [if_pos h1]
        by_cases h2 : containsL openTag m.content = true
        · rw [if_pos h2]
          cases hI : idxOf? closeTag m.content with
          | none => exact ih
          | some v => exact absurd (by simp [ecsQual, h1, h2, hI]) hq
        · rw [if_neg h2]
          exact ih
      · rw [if_neg h1]
        exact ih

theorem runChatAux_invariant (producer : Nat → RMsg) (maxMessages : Nat)
    (keyword : List Char) :
    ∀ (n : Nat) (acc : List RMsg), maxMessages - acc.length ≤ n →
      acc <+: runChatAux producer maxMessages keyword acc ∧
      terminationMet maxMessages keyword (runChatAux producer maxMessages keyword acc) = true ∧
      ∀ j, acc.length ≤ j → j < (runChatAux producer maxMessages keyword acc).length →
        terminationMet maxMessages keyword
          ((runChatAux producer maxMessages keyword acc).take j) = false := by
  intro n
  induction n with
  | zero =>
    intro acc hn
    have hle : maxMessages ≤ acc.length := by omega
    have hmet : terminationMet maxMessages keyword acc = true := by
      simp only [terminationMet, Bool.or_eq_true, decide_eq_true_eq]
      exact Or.inl hle
    rw [runChatAux, if_pos hmet]
    exact ⟨List.prefix_refl _, hmet, fun j hj hj' => absurd hj' (by omega)⟩
  | succ n ih =>
    intro acc hn
    by_cases hmet : terminationMet maxMessages keyword acc = true
    · rw [runChatAux, if_pos hmet]
      exact ⟨List.prefix_refl _, hmet, fun j hj hj' => absurd hj' (by omega)⟩
    · rw [runChatAux, if_neg hmet]
      have hlen : acc.length < maxMessages := by
        by_contra hge
        exact hmet (by
          simp only [terminationMet, Bool.or_eq_true, decide_eq_true_eq]
          exact Or.inl (by omega))
      obtain ⟨h1, h2, h3⟩ :=
        ih (acc ++ [producer acc.length]) (by simp; omega)
      refine ⟨(List.prefix_append acc [producer acc.length]).trans h1, h2, ?_⟩
      intro j hj hj'
      rcases Nat.lt_or_ge j (acc.length + 1) with hcase | hcase
      · have hjeq : j = acc.length := by omega
        have hacc : acc <+: runChatAux producer maxMessages keyword (acc ++ [producer acc.length]) :=
          (List.prefix_append acc [producer acc.length]).trans h1
        have htake := (List.prefix_iff_eq_take).1 hacc
        rw [hjeq, ← htake]
        exact Bool.eq_false_iff.2 hmet
      · exact h3 j (by simpa using hcase) hj'

theorem register_tool_tools (r : ToolRegistryM) (cat : String) (t : PTool)
    (md : Option (List (String × String))) (c : String) :
    (register_tool r cat t md).tools c =
      if c = cat then r.tools cat ++ [t] else r.tools c := by
  simp only [register_tool]
  split_ifs <;> rfl

theorem register_tools_none_tools (cat : String) (ts : List PTool) :
    ∀ (r : ToolRegistryM) (c : String),
      (register_tools r cat ts none).tools c =
        if c = cat then r.tools cat ++ ts else r.tools c := by
  induction ts with
  | nil =>
    intro r c
    simp only [register_tools, List.foldl_nil]
    split_ifs with h <;> simp [h]
  | cons t ts ih =>
    intro r c
    have hstep : register_tools r cat (t :: ts) none =
        register_tools (register_tool r cat t none) cat ts none := rfl
    rw [hstep, ih]
    rw [register_tool_tools, register_tool_tools]
    by_cases h : c = cat
    · simp [h]
    · simp [h]

theorem lastN_length_le (n : Nat) (l : List α) : (lastN n l).length ≤ n := by
  simp only [lastN, List.length_drop]
  omega

theorem build_chat_task_hist (um : List Char) (h : List HistEntry) (hne : h ≠ []) :
    build_chat_task um (some ⟨some h, none, none, none⟩) =
      pys "Previous Conversation Summary:\n" ++
        ((lastN 4 (filterHist (lastN 10 h))).map formatEntryW).flatten ++ pys "\n" ++
        (pys "Current User Question: " ++ um ++ pys "\n\n" ++
          pys "\nPlease help the user by engaging the appropriate expert agents. Continue the conversation naturally based on the context.") := by
  simp [build_chat_task, histSectionW, ctxExtrasW, List.isEmpty_iff, hne]

/-- C3: calling `initialize_tool_registry` twice in the same process yields
the very same registry — and hence the same `get_tools` contents for every
category — as calling it once: the second call is short-circuited by the
module flag and registers no tool, so no tool is duplicated in any
category. -/
theorem tool_registry_init_idempotent (s1 s2 : ToolSources) :
    initialize_tool_registry s2 (initialize_tool_registry s1 toolModuleInit).2 =
      initialize_tool_registry s1 toolModuleInit ∧
    ∀ category,
      get_tools (initialize_tool_registry s2 (initialize_tool_registry s1 toolModuleInit).2).1
          category =
        get_tools (initialize_tool_registry s1 toolModuleInit).1 category := by
  have h : initialize_tool_registry s2 (initialize_tool_registry s1 toolModuleInit).2 =
      initialize_tool_registry s1 toolModuleInit := rfl
  exact ⟨h, fun category => by rw [h]⟩

/-- C8: a failure raised by one category's registration source during
`initialize_tool_registry` is absorbed (the call still returns normally) and
the other categories are registered regardless: with the Loki source
failing, the Prometheus tools still land in `"metrics"`, and symmetrically
with the Prometheus source failing, the Loki tools still land in
`"logs"`. -/
theorem tool_registry_partial_failure_isolated (e e' : String) (ts ts' : List PTool)
    (kub kub' : Except String (Option (List PTool))) :
    get_tools (initialize_tool_registry ⟨.error e, .ok ts, kub⟩ toolModuleInit).1 "metrics" = ts ∧
    get_tools (initialize_tool_registry ⟨.error e, .ok ts, kub⟩ toolModuleInit).1 "logs" = [] ∧
    get_tools (initialize_tool_registry ⟨.ok ts', .error e', kub'⟩ toolModuleInit).1 "logs" = ts' := by
  refine ⟨?_, ?_, ?_⟩
  · cases kub with
    | error msg =>
      simp [initialize_tool_registry, get_tool_registry, toolModuleInit, get_tools,
        register_tools_none_tools, toolRegistryInit]
    | ok o =>
      cases o with
      | none =>
        simp [initialize_tool_registry, get_tool_registry, toolModuleInit, get_tools,
          register_tools_none_tools, toolRegistryInit]
      | some ks =>
        simp [initialize_tool_registry, get_tool_registry, toolModuleInit, get_tools,
          register_tools_none_tools, toolRegistryInit]
  · cases kub with
    | error msg =>
      simp [initialize_tool_registry, get_tool_registry, toolModuleInit, get_tools,
        register_tools_none_tools, toolRegistryInit]
    | ok o =>
      cases o with
      | none =>
        simp [initialize_tool_registry, get_tool_registry, toolModuleInit, get_tools,
          register_tools_none_tools, toolRegistryInit]
      | some ks =>
        simp [initialize_tool_registry, get_tool_registry, toolModuleInit, get_tools,
          register_tools_none_tools, toolRegistryInit]
  · cases kub' with
    | error msg =>
      simp [initialize_tool_registry, get_tool_registry, toolModuleInit, get_tools,
        register_tools_none_tools, toolRegistryInit]
    | ok o =>
      cases o with
      | none =>
        simp [initialize_tool_registry, get_tool_registry, toolModuleInit, get_tools,
          register_tools_none_tools, toolRegistryInit]
      | some ks =>
        simp [initialize_tool_registry, get_tool_registry, toolModuleInit, get_tools,
          register_tools_none_tools, toolRegistryInit]

/-- C9: `initialize_tool_registry` sets the module flag before returning
even when every registration source failed; a later call therefore performs
no registration at all, so the categories that failed the first time stay
empty and are never retried. -/
theorem tool_registry_flag_set_once (e1 e2 e3 : String) (s2 : ToolSources) :
    (initialize_tool_registry ⟨.error e1, .error e2, .error e3⟩ toolModuleInit).2.tools_initialized
        = true ∧
    (∀ category,
      get_tools (initialize_tool_registry ⟨.error e1, .error e2, .error e3⟩ toolModuleInit).1
        category = []) ∧
    (initialize_tool_registry s2
        (initialize_tool_registry ⟨.error e1, .error e2, .error e3⟩ toolModuleInit).2).1 =
      (initialize_tool_registry ⟨.error e1, .error e2, .error e3⟩ toolModuleInit).1 ∧
    ∀ category,
      get_tools (initialize_tool_registry s2
          (initialize_tool_registry ⟨.error e1, .error e2, .error e3⟩ toolModuleInit).2).1
        category = [] := by
  exact ⟨rfl, fun _ => rfl, rfl, fun _ => rfl⟩

/-- C10: in `ChatWorkflow._build_chat_task`, a history entry whose
serialisation mentions `tool_calls` or whose content exceeds 2000 characters
is replaced by the fixed placeholder when its role is `assistant` and is
dropped otherwise — in particular a user entry longer than 2000 characters
contributes nothing; and the task's history section is built only from the
entries the filter keeps. -/
theorem build_chat_task_drops_toolish :
    (∀ e : HistEntry, e.reprToolCalls = true ∨ 2000 < e.content.length →
      filterStep e = if e.role = "assistant" then some placeholderEntry else none) ∧
    (∀ e : HistEntry, e.role = "user" → 2000 < e.content.length → filterStep e = none) ∧
    (∀ (um : List Char) (h : List HistEntry), h ≠ [] →
      build_chat_task um (some ⟨some h, none, none, none⟩) =
        pys "Previous Conversation Summary:\n" ++
          ((lastN 4 ((lastN 10 h).filterMap filterStep)).map formatEntryW).flatten ++ pys "\n" ++
          (pys "Current User Question: " ++ um ++ pys "\n\n" ++
            pys "\nPlease help the user by engaging the appropriate expert agents. Continue the conversation naturally based on the context.")) := by
  refine ⟨?_, ?_, ?_⟩
  · intro e he
    have hcond : (e.reprToolCalls || decide (2000 < e.content.length)) = true := by
      rcases he with h | h
      · simp [h]
      · simp [h]
    by_cases hrole : (e.role == "tool" || e.role == "function") = true
    · have hna : e.role ≠ "assistant" := by
        simp only [Bool.or_eq_true, beq_iff_eq] at hrole
        rcases hrole with h | h <;> simp [h]
      rw [filterStep, if_pos hrole, if_neg hna]
    · rw [filterStep, if_neg hrole, if_pos hcond]
      by_cases ha : e.role = "assistant"
      · simp [ha]
      · simp [ha]
  · intro e h1 h2
    rw [filterStep]
    rw [if_neg (by simp [h1]), if_pos (by simp [h2]), if_neg (by simp [h1])]
  · exact fun um h hne => build_chat_task_hist um h hne

/-- Witness for C10: a concrete user entry of 2001 characters is dropped by
the history filter. -/
theorem build_chat_task_drops_toolish_witness :
    2000 < (List.replicate 2001 'c').length ∧
    filterStep ⟨"user", List.replicate 2001 'c', false⟩ = none :=
  ⟨by simp,
   build_chat_task_drops_toolish.2.1 ⟨"user", List.replicate 2001 'c', false⟩ rfl (by simp)⟩

/-- C1: every conversation run of the swarm team terminates (the run loop
is total), ends in a state satisfying the configured termination condition,
emits at most 20 events, and stops immediately after any message containing
`TERMINATE`: no events follow such a message. -/
theorem chat_run_event_bound (producer : Nat → RMsg) :
    terminationMet 20 kwTERM (runChat producer) = true ∧
    (runChat producer).length ≤ 20 ∧
    ∀ pre m post, runChat producer = pre ++ m :: post →
      containsL kwTERM m.content = true → post = [] := by
  obtain ⟨hpre, hmet, hpref⟩ :=
    runChatAux_invariant producer 20 kwTERM 20 [] (by simp)
  rw [runChat]
  refine ⟨hmet, ?_, ?_⟩
  · by_contra hgt
    push_neg at hgt
    have h20 := hpref 20 (by simp) (by omega)
    have habs : terminationMet 20 kwTERM
        ((runChatAux producer 20 kwTERM []).take 20) = true := by
      simp only [terminationMet, Bool.or_eq_true, decide_eq_true_eq]
      exact Or.inl (by rw [List.length_take]; omega)
    rw [h20] at habs
    exact Bool.false_ne_true habs
  · intro pre m post heq hcon
    by_contra hpost
    have hplen : post.length ≠ 0 := by
      intro h0
      exact hpost (List.length_eq_zero.1 h0)
    have hlen : pre.length + 1 < (runChatAux producer 20 kwTERM []).length := by
      rw [heq]
      simp only [List.length_append, List.length_cons]
      omega
    have hf := hpref (pre.length + 1) (by simp) hlen
    have htake : (runChatAux producer 20 kwTERM []).take (pre.length + 1) = pre ++ [m] := by
      rw [heq, List.take_append_eq_append_take,
        List.take_of_length_le (by omega), Nat.add_sub_cancel_left]
      simp
    rw [htake] at hf
    have habs : terminationMet 20 kwTERM (pre ++ [m]) = true := by
      simp only [terminationMet, Bool.or_eq_true]
      refine Or.inr ?_
      rw [List.any_eq_true]
      exact ⟨m, by simp, hcon⟩
    rw [hf] at habs
    exact Bool.false_ne_true habs

/-- Evaluation of one concrete engine run: the first produced event carries
the keyword, so the run is that single event. -/
theorem runChatW_eq : runChat chatProducerW = [chatMsgW] := by
  have h1 : terminationMet 20 kwTERM [chatMsgW] = true := by decide
  rw [runChat, runChatAux, if_neg (by decide)]
  show runChatAux chatProducerW 20 kwTERM [chatMsgW] = [chatMsgW]
  rw [runChatAux, if_pos h1]

/-- Witness for C1: on the concrete producer, the run equals the singleton
list of the keyword-carrying event and nothing follows it. -/
theorem chat_run_event_bound_witness :
    runChat chatProducerW = [] ++ chatMsgW :: ([] : List RMsg) ∧
    containsL kwTERM chatMsgW.content = true ∧
    ([] : List RMsg) = [] := by
  have he : runChat chatProducerW = [] ++ chatMsgW :: ([] : List RMsg) := by
    rw [runChatW_eq]
    rfl
  exact ⟨he, by decide,
    (chat_run_event_bound chatProducerW).2.2 [] chatMsgW [] he (by decide)⟩

/-- C4 counterexample: two `process_chat` calls on the same workflow obtain
teams whose participant lists are the identical agent objects, all allocated
during `__init__` (before any request); only the `Swarm` object itself is
fresh.  The agent instances are therefore shared across runs, contrary to
the claim. -/
theorem shared_agents_cex :
    (process_chat_team (chat_workflow_init 0).1 7).1.participants =
      (process_chat_team (chat_workflow_init 0).1 8).1.participants ∧
    (process_chat_team (chat_workflow_init 0).1 7).1.teamId ≠
      (process_chat_team (chat_workflow_init 0).1 8).1.teamId ∧
    ((process_chat_team (chat_workflow_init 0).1 7).1.participants.all
        (fun a => decide (a.id < (chat_workflow_init 0).2))) = true := by
  exact ⟨rfl, by decide, by decide⟩

/-- C4 amended: each `process_chat` call creates a fresh `Swarm` team
object, but its participants are the six agent instances created once by
`__init__` and shared by every run (alongside the model client and the tool
registry). -/
theorem team_fresh_but_agents_shared (c c' c'' : Nat) :
    (create_team (chat_workflow_init c).1 c').1.participants =
      (create_team (chat_workflow_init c).1 c'').1.participants ∧
    (∀ a, a ∈ (create_team (chat_workflow_init c).1 c').1.participants →
      a.id < (chat_workflow_init c).2) ∧
    (c' ≠ c'' →
      (create_team (chat_workflow_init c).1 c').1 ≠
        (create_team (chat_workflow_init c).1 c'').1) := by
  refine ⟨rfl, ?_, ?_⟩
  · intro a ha
    simp only [create_team, chat_workflow_init, List.mem_cons,
      List.mem_singleton] at ha
    rcases ha with h | h | h | h | h | h | h
    · simp [h, chat_workflow_init]
    · simp [h, chat_workflow_init]
    · simp [h, chat_workflow_init]
    · simp [h, chat_workflow_init]
    · simp [h, chat_workflow_init]
    · simp [h, chat_workflow_init]
    · exact absurd h (List.not_mem_nil a)
  · intro hne habs
    exact hne (congrArg SwarmTeam.teamId habs)

/-- Witness for C4's amended statement at concrete allocation tickets. -/
theorem team_fresh_but_agents_shared_witness :
    (7 : Nat) ≠ 8 ∧
    (create_team (chat_workflow_init 0).1 7).1 ≠ (create_team (chat_workflow_init 0).1 8).1 :=
  ⟨by decide, (team_fresh_but_agents_shared 0 7 8).2.2 (by decide)⟩

/-- C2 counterexample: on a run whose only message interleaves the keyword
with itself, the primary extraction finds no long-enough prefix and the
fallback path, which merely deletes keyword occurrences left to right,
returns a string that still contains `TERMINATE` (spliced together by the
deletions) together with the text that followed it. -/
theorem extract_final_keyword_leak_cex :
    containsL kwTERM cexMsgB.content = true ∧
    extract_final_response [cexMsgB] = pys "TERMINATE pattern splice keeps going" ∧
    containsL kwTERM (extract_final_response [cexMsgB]) = true := by
  exact ⟨by decide, by decide, by decide⟩

/-- C2 amended: whenever the primary (first-pass) extraction produces the
answer, that answer contains no occurrence of the keyword and, when the
inspected message contained the keyword, the answer is carved entirely out
of the text before its first occurrence; the guarantee does not extend to
the fallback pass. -/
theorem extract_final_primary_no_keyword (messages : List RMsg) (r : List Char)
    (h : mainScan messages.reverse = some r) :
    extract_final_response messages = r ∧
    containsL kwTERM r = false ∧
    ∃ m, m ∈ messages ∧ mainQual m = true ∧ r = mainRes m ∧
      (containsL kwTERM (trimL m.content) = true →
        r <:+: firstSplit kwTERM (trimL m.content)) := by
  have hne : messages ≠ [] := by
    intro habs
    rw [habs] at h
    simp [mainScan] at h
  have hie : messages.isEmpty = false := by
    simp [List.isEmpty_iff, hne]
  refine ⟨?_, ?_, ?_⟩
  · simp [extract_final_response, hie, h]
  · rw [mainScan_eq_find] at h
    cases hf : messages.reverse.find? mainQual with
    | none => rw [hf] at h; simp at h
    | some m =>
      rw [hf] at h
      simp at h
      rw [← h]
      exact mainRes_no_kw m
  · rw [mainScan_eq_find] at h
    cases hf : messages.reverse.find? mainQual with
    | none => rw [hf] at h; simp at h
    | some m =>
      rw [hf] at h
      simp at h
      refine ⟨m, List.mem_reverse.1 (List.mem_of_find?_eq_some hf),
        List.find?_some hf, h.symm, ?_⟩
      intro hkw
      have hres : mainRes m = rstripPunct (trimL (firstSplit kwTERM (trimL m.content))) := by
        simp [mainRes, hkw]
      rw [← h, hres]
      exact ((rdropWhileL_isPre _ _).isInfix).trans
        (trimL_isInfix (firstSplit kwTERM (trimL m.content)))

/-- Witness for C2's amended statement: a concrete primary-path extraction. -/
theorem extract_final_primary_no_keyword_witness :
    mainScan [msgGood].reverse =
      some (pys "The pod is crashing because its memory limit is far too low") ∧
    extract_final_response [msgGood] =
      pys "The pod is crashing because its memory limit is far too low" :=
  ⟨by decide,
   (extract_final_primary_no_keyword [msgGood]
     (pys "The pod is crashing because its memory limit is far too low") (by decide)).1⟩

/-- C7 counterexample: an orchestrator message in which the first closing
marker precedes the opening marker is malformed, yet the extraction returns
`some ""` (Python slicing with `start > end` yields the empty string), not
`None`. -/
theorem context_summary_malformed_cex :
    containsL openTag msgMalformed.content = true ∧
    containsL closeTag msgMalformed.content = true ∧
    extract_context_summary [msgMalformed] = some [] := by
  exact ⟨by decide, by decide, by decide⟩

/-- C7 amended: the extraction returns the trimmed `content[start:end]`
slice of the most recent `chat_orchestrator` message containing the opening
marker together with a closing marker anywhere in the text (`start` just
after the first opening marker, `end` at the first closing-marker position —
the enclosed text when the markers are well-formed, possibly empty when the
closing marker comes first); it returns `none` when no message qualifies,
and a missing closing marker (the caught `ValueError`) merely skips that
message.  The function is total: no parse failure escapes. -/
theorem context_summary_structure (messages : List RMsg) :
    extract_context_summary messages = (messages.reverse.find? ecsQual).map ecsRes ∧
    (∀ m, ecsQual m = true → m.source = "chat_orchestrator" ∧
      containsL openTag m.content = true ∧ containsL closeTag m.content = true) ∧
    ((∀ m, m ∈ messages → ecsQual m = false) → extract_context_summary messages = none) := by
  refine ⟨?_, ?_, ?_⟩
  · rw [extract_context_summary, ecsGo_eq_find]
  · intro m hm
    simp only [ecsQual, Bool.and_eq_true, beq_iff_eq] at hm
    obtain ⟨⟨h1, h2⟩, h3⟩ := hm
    rw [idxOf?_isSome_eq] at h3
    exact ⟨h1, h2, h3⟩
  · intro hall
    rw [extract_context_summary, ecsGo_eq_find]
    have hnone : messages.reverse.find? ecsQual = none :=
      List.find?_eq_none.2 fun x hx => by
        simp [hall x (List.mem_reverse.1 hx)]
    rw [hnone]
    rfl

/-- Witness for C7's amended statement: with no qualifying message the
extraction returns `none`. -/
theorem context_summary_structure_witness :
    (∀ m, m ∈ [msgPlainW] → ecsQual m = false) ∧
    extract_context_summary [msgPlainW] = none :=
  ⟨by decide, (context_summary_structure [msgPlainW]).2.2 (by decide)⟩

/-- C6 counterexample: the fallback pass skips only `StopMessage`, so a run
whose only event is a handoff event has its handoff text returned instead of
the fixed fallback sentence the claim prescribes for runs without a
qualifying message. -/
theorem fallback_returns_handoff_cex :
    msgHandoffW.mtype = "HandoffMessage" ∧
    extract_final_response [msgHandoffW] = msgHandoffW.content ∧
    extract_final_response [msgHandoffW] ≠ fallbackSentence := by
  exact ⟨rfl, by decide, by decide⟩

/-- C6 amended: the extraction scans the messages in reverse and returns the
first text qualifying for the primary pass (which skips stop and handoff
events, serialized-object debug text, and texts at most 30 characters long
after keyword and trailing-punctuation cleaning); failing that, the first
text qualifying for the relaxed fallback pass, which skips only stop events
and serialized debug text and requires more than 20 characters after
keyword deletion — so a handoff text can be returned there; failing both,
the fixed fallback sentence. -/
theorem extract_final_structure (messages : List RMsg) (hne : messages ≠ []) :
    extract_final_response messages =
      (match messages.reverse.find? mainQual with
       | some m => mainRes m
       | none =>
         match messages.reverse.find? fbQual with
         | some m => fbRes m
         | none => fallbackSentence) ∧
    (∀ m, mainQual m = true →
      m.mtype ≠ "StopMessage" ∧ m.mtype ≠ "HandoffMessage" ∧ 30 < (mainRes m).length) ∧
    (∀ m, fbQual m = true → m.mtype ≠ "StopMessage" ∧ 20 < (fbRes m).length) ∧
    ((∀ m, m ∈ messages → mainQual m = false ∧ fbQual m = false) →
      extract_final_response messages = fallbackSentence) := by
  have hie : messages.isEmpty = false := by
    simp [List.isEmpty_iff, hne]
  have hmain : extract_final_response messages =
      (match messages.reverse.find? mainQual with
       | some m => mainRes m
       | none =>
         match messages.reverse.find? fbQual with
         | some m => fbRes m
         | none => fallbackSentence) := by
    rw [extract_final_response, if_neg (by simp [hie])]
    rw [mainScan_eq_find, fallbackScan_eq_find]
    cases messages.reverse.find? mainQual with
    | some m => rfl
    | none =>
      cases messages.reverse.find? fbQual with
      | some m => rfl
      | none => rfl
  refine ⟨hmain, ?_, ?_, ?_⟩
  · intro m hq
    simp only [mainQual] at hq
    split_ifs at hq with hA hB hC hD
    · rw [Bool.or_eq_true] at hA
      push_neg at hA
      refine ⟨by simpa using hA.1, by simpa using hA.2, ?_⟩
      have : mainRes m = rstripPunct (trimL (firstSplit kwTERM (trimL m.content))) := by
        simp [mainRes, hD]
      rw [this]
      exact of_decide_eq_true hq
    · rw [Bool.or_eq_true] at hA
      push_neg at hA
      refine ⟨by simpa using hA.1, by simpa using hA.2, ?_⟩
      have : mainRes m = trimL m.content := by
        simp [mainRes, hD]
      rw [this]
      exact of_decide_eq_true hq
  · intro m hq
    simp only [fbQual] at hq
    split_ifs at hq with hA hB
    · refine ⟨by simpa using hA, ?_⟩
      rw [fbRes]
      exact of_decide_eq_true hq
  · intro hall
    rw [hmain]
    have h1 : messages.reverse.find? mainQual = none :=
      List.find?_eq_none.2 fun x hx => by
        simp [(hall x (List.mem_reverse.1 hx)).1]
    have h2 : messages.reverse.find? fbQual = none :=
      List.find?_eq_none.2 fun x hx => by
        simp [(hall x (List.mem_reverse.1 hx)).2]
    rw [h1, h2]

/-- Witness for C6's amended statement: a run with one short message
qualifies for neither pass, so the fixed fallback sentence is returned. -/
theorem extract_final_structure_witness :
    ([msgShortW] ≠ ([] : List RMsg)) ∧
    (∀ m, m ∈ [msgShortW] → mainQual m = false ∧ fbQual m = false) ∧
    extract_final_response [msgShortW] = fallbackSentence :=
  ⟨by simp, by decide,
   (extract_final_structure [msgShortW] (by simp)).2.2.2 (by decide)⟩

/-- C5 counterexample: `MessageProcessor.build_task` never substitutes the
fixed placeholder — a 501-character assistant entry is truncated with an
ellipsis (`"a..."` appears in the task) while the placeholder string
`"[Previous analysis provided]"` does not occur. -/
theorem build_task_no_placeholder_cex :
    500 < (List.replicate 501 'a').length ∧
    containsL (pys "[Previous analysis provided]")
      (build_task (pys "show") (some ⟨some hM, none, none, none⟩)) = false ∧
    containsL (pys "a...")
      (build_task (pys "show") (some ⟨some hM, none, none, none⟩)) = true := by
  exact ⟨by simp, by decide, by decide⟩

/-- C5 amended: `ChatWorkflow._build_chat_task` includes at most the last 4
entries of the filtered view of the last 10 history entries, the filter
never passes tool/function roles, formatted entries longer than 300
characters are truncated with a trailing ellipsis, and assistant entries
that exceed 2000 characters or mention tool calls are replaced by the fixed
placeholder; `MessageProcessor.build_task` includes at most the 6 entries
preceding the current one, contributes nothing for tool/function roles, and
truncates entries longer than 500 characters with a trailing ellipsis —
without any placeholder substitution. -/
theorem task_builders_filter_truncate :
    (∀ h : List HistEntry, (lastN 4 (filterHist (lastN 10 h))).length ≤ 4) ∧
    (∀ (h : List HistEntry) (e : HistEntry), e ∈ filterHist h →
      e.role ≠ "tool" ∧ e.role ≠ "function") ∧
    (∀ e : HistEntry, 300 < e.content.length →
      formatEntryW e =
        upperL (pys e.role) ++ pys ": " ++ (e.content.take 300 ++ pys "...") ++ pys "\n") ∧
    (∀ e : HistEntry, e.role = "assistant" →
      e.reprToolCalls = true ∨ 2000 < e.content.length →
      filterStep e = some placeholderEntry) ∧
    (∀ (um : List Char) (h : List HistEntry), h ≠ [] →
      build_chat_task um (some ⟨some h, none, none, none⟩) =
        pys "Previous Conversation Summary:\n" ++
          ((lastN 4 (filterHist (lastN 10 h))).map formatEntryW).flatten ++ pys "\n" ++
          (pys "Current User Question: " ++ um ++ pys "\n\n" ++
            pys "\nPlease help the user by engaging the appropriate expert agents. Continue the conversation naturally based on the context.")) ∧
    (∀ h : List HistEntry, (lastN 6 h.dropLast).length ≤ 6) ∧
    (∀ e : HistEntry, e.role = "tool" ∨ e.role = "function" → fmtM e = []) ∧
    (∀ e : HistEntry, e.role = "assistant" → 500 < e.content.length →
      fmtM e = pys "🤖 ASSISTANT: " ++ (e.content.take 500 ++ pys "...") ++ pys "\n") := by
  refine ⟨?_, ?_, ?_, ?_, ?_, ?_, ?_, ?_⟩
  · intro h
    exact lastN_length_le 4 _
  · intro h e he
    rw [filterHist] at he
    obtain ⟨a, ha, hfa⟩ := List.mem_filterMap.1 he
    rw [filterStep] at hfa
    split_ifs at hfa with h1 h2 h3
    · have he' : e = placeholderEntry := (Option.some.inj hfa).symm
      rw [he', placeholderEntry]
      exact ⟨by simp, by simp⟩
    · have he' : e = a := (Option.some.inj hfa).symm
      rw [Bool.or_eq_true] at h1
      push_neg at h1
      rw [he']
      exact ⟨by simpa using h1.1, by simpa using h1.2⟩
  · intro e h
    rw [formatEntryW, truncate300, if_pos h]
  · intro e h1 h2
    have hbeq1 : (e.role == "tool" || e.role == "function") = false := by
      rw [h1]
      decide
    have hbeq2 : (e.role == "assistant") = true := by
      rw [h1]
      exact beq_self_eq_true _
    have hcond : (e.reprToolCalls || decide (2000 < e.content.length)) = true := by
      rcases h2 with h | h
      · simp [h]
      · simp [h]
    rw [filterStep, if_neg (by simp [hbeq1]), if_pos hcond, if_pos hbeq2]
  · exact fun um h hne => build_chat_task_hist um h hne
  · intro h
    exact lastN_length_le 6 _
  · intro e he
    rcases he with h | h
    · have hb1 : (e.role == "user") = false := by rw [h]; decide
      have hb2 : (e.role == "assistant") = false := by rw [h]; decide
      rw [fmtM, if_neg (by simp [hb1]), if_neg (by simp [hb2])]
    · have hb1 : (e.role == "user") = false := by rw [h]; decide
      have hb2 : (e.role == "assistant") = false := by rw [h]; decide
      rw [fmtM, if_neg (by simp [hb1]), if_neg (by simp [hb2])]
  · intro e h1 h2
    have hb1 : (e.role == "user") = false := by rw [h1]; decide
    have hb2 : (e.role == "assistant") = true := by
      rw [h1]
      exact beq_self_eq_true _
    rw [fmtM, if_neg (by simp [hb1]), if_pos hb2, truncate500, if_pos h2]

/-- Witness for C5's amended statement: a concrete 301-character user entry
is truncated with the ellipsis marker. -/
theorem task_builders_filter_truncate_witness :
    300 < (List.replicate 301 'b').length ∧
    formatEntryW ⟨"user", List.replicate 301 'b', false⟩ =
      upperL (pys "user") ++ pys ": " ++
        ((List.replicate 301 'b').take 300 ++ pys "...") ++ pys "\n" :=
  ⟨by simp,
   task_builders_filter_truncate.2.2.1 ⟨"user", List.replicate 301 'b', false⟩ (by simp)⟩

end SreAgent
